import Mathlib

/-!
Verification development for the github-data-fetcher service.

The definitions below are a shallow embedding of the Go source:
  * `internal/github/client.go` — the resilient fetcher's `retry` wrapper
    (`maxRetries`, rate-limit / abuse / 5xx / permanent classification);
  * `internal/syncer/syncer.go` — `parseRepoIdentifiers`, `upsertRepository`,
    `getSinceTimestamp`, `prepareCommitBulkInsert`, `syncRepo`,
    `syncRepoInTransaction`, `runSyncCycle`, the `concurrency` constant;
  * `internal/database/query.sql` and the initial migration — the repository
    and commit tables and the five queries the syncer uses.

Timestamps are modelled as integers (seconds); machine integers are modelled
as unbounded `Int` since no claim involves overflow.  External effects
(the GitHub API, transaction begin/commit) are supplied as explicit
environments so that each code path of the source is reachable.
-/

namespace GhFetcher

/-! ## Resilient fetcher: `internal/github/client.go` -/

/-- Classification of the outcome of one call to the GitHub API, mirroring the
branches of `Client.retry`: success (`err == nil`), `github.RateLimitError`
(hard quota with a reset deadline), `github.AbuseRateLimitError` (secondary
limit with a suggested wait), an HTTP error response with a status code
(the code branches on `resp.StatusCode >= 500`), or an error carrying no
HTTP response. -/
inductive Outcome where
  | ok
  | rateLimited (resetAt : Int)
  | abuse (retryAfter : Int)
  | httpError (statusCode : Nat)
  | otherError
  deriving DecidableEq

/-- Result of the retry wrapper when it fails: either the context's
cancellation error (`ctx.Err()`) or the error of the last API call. -/
inductive RetryError where
  | ctxCanceled
  | apiError (outcome : Outcome)
  deriving DecidableEq

/-- Constant `maxRetries = 5` from `internal/github/client.go`.
(`retryMinDelay` and `retryMaxDelay` only shape sleep durations, which this
embedding does not model.) -/
def maxRetries : Nat := 5

/-- One execution of the loop body of `Client.retry`, recursing on the number
of remaining loop iterations (`maxRetries - attempt`).  `resp n` is the
outcome of the API call made on loop iteration `n`; `ctxDone n` models
whether external cancellation is observed while handling iteration `n`
(the code checks `ctx.Err()` right after a failed call and again inside each
wait's `select`; cancellation arriving between those two points of the same
iteration is not distinguished).  Waits themselves only consume time, so they
are not otherwise modelled.  Returns the number of API calls made and
`none` on success or the surfaced error: the loop retries on rate-limit,
abuse and `>= 500` responses, returns the error immediately otherwise, and
after the loop returns the error of the last call. -/
def retryFrom (resp : Nat → Outcome) (ctxDone : Nat → Bool) :
    Nat → Nat → Option RetryError → Nat × Option RetryError
  | 0, _, lastErr => (0, lastErr)
  | remaining + 1, attempt, _ =>
    match resp attempt with
    | .ok => (1, none)
    | .rateLimited r =>
      if ctxDone attempt then (1, some .ctxCanceled)
      else
        let p := retryFrom resp ctxDone remaining (attempt + 1)
          (some (.apiError (.rateLimited r)))
        (p.1 + 1, p.2)
    | .abuse w =>
      if ctxDone attempt then (1, some .ctxCanceled)
      else
        let p := retryFrom resp ctxDone remaining (attempt + 1)
          (some (.apiError (.abuse w)))
        (p.1 + 1, p.2)
    | .httpError code =>
      if ctxDone attempt then (1, some .ctxCanceled)
      else if 500 ≤ code then
        let p := retryFrom resp ctxDone remaining (attempt + 1)
          (some (.apiError (.httpError code)))
        (p.1 + 1, p.2)
      else (1, some (.apiError (.httpError code)))
    | .otherError =>
      if ctxDone attempt then (1, some .ctxCanceled)
      else (1, some (.apiError .otherError))

/-- The `Client.retry` wrapper: run the loop for `maxRetries` iterations
starting at attempt 0 with `var err error` initially nil. -/
def retry (resp : Nat → Outcome) (ctxDone : Nat → Bool) : Nat × Option RetryError :=
  retryFrom resp ctxDone maxRetries 0 none

/-- Helper: with every attempt rate-limited and no cancellation, the loop
makes one call per remaining iteration and surfaces the rate-limit error. -/
lemma retryFrom_rateLimited_all (resp : Nat → Outcome) (ctxDone : Nat → Bool) (R : Int)
    (hresp : ∀ n, resp n = Outcome.rateLimited R) (hctx : ∀ n, ctxDone n = false) :
    ∀ (remaining attempt : Nat) (lastErr : Option RetryError), 0 < remaining →
      retryFrom resp ctxDone remaining attempt lastErr =
        (remaining, some (RetryError.apiError (Outcome.rateLimited R))) := by
  intro remaining
  induction remaining with
  | zero => intro _ _ h; exact absurd h (lt_irrefl 0)
  | succ k ih =>
    intro attempt lastErr _
    rw [retryFrom, hresp attempt]
    simp only [hctx attempt, Bool.false_eq_true, if_false]
    cases k with
    | zero => rfl
    | succ m =>
      rw [ih (attempt + 1) _ (Nat.succ_pos m)]

/-- Helper: with every attempt failing with the same `>= 500` status and no
cancellation, the loop makes one call per remaining iteration and surfaces
the server error. -/
lemma retryFrom_serverError_all (resp : Nat → Outcome) (ctxDone : Nat → Bool) (c : Nat)
    (hresp : ∀ n, resp n = Outcome.httpError c) (hctx : ∀ n, ctxDone n = false)
    (hc : 500 ≤ c) :
    ∀ (remaining attempt : Nat) (lastErr : Option RetryError), 0 < remaining →
      retryFrom resp ctxDone remaining attempt lastErr =
        (remaining, some (RetryError.apiError (Outcome.httpError c))) := by
  intro remaining
  induction remaining with
  | zero => intro _ _ h; exact absurd h (lt_irrefl 0)
  | succ k ih =>
    intro attempt lastErr _
    rw [retryFrom, hresp attempt]
    simp only [hctx attempt, Bool.false_eq_true, if_false, hc, if_true]
    cases k with
    | zero => rfl
    | succ m =>
      rw [ih (attempt + 1) _ (Nat.succ_pos m)]

/-- Helper: a failed call whose classification is a permanent (`< 500`) HTTP
error, with no cancellation observed, is surfaced immediately after that one
call, however many loop iterations remain. -/
lemma retryFrom_permanent_first (resp : Nat → Outcome) (ctxDone : Nat → Bool)
    (code attempt : Nat) (remaining : Nat) (lastErr : Option RetryError)
    (h : resp attempt = Outcome.httpError code) (hctx : ctxDone attempt = false)
    (hcode : code < 500) :
    retryFrom resp ctxDone (remaining + 1) attempt lastErr =
      (1, some (RetryError.apiError (Outcome.httpError code))) := by
  rw [retryFrom, h]
  simp only [hctx, Bool.false_eq_true, if_false]
  rw [if_neg (by omega)]

/-- C2 (counterexample): the claim says an unbounded run of rate-limited
responses never causes the call to surface a non-cancellation error; but with
every attempt rate-limited and cancellation never observed, `retry` stops
after `maxRetries` calls and surfaces the rate-limit error itself — a
non-cancellation error. -/
theorem rate_limit_retry_not_indefinite_counterexample :
    retry (fun _ => Outcome.rateLimited 100) (fun _ => false) =
      (maxRetries, some (RetryError.apiError (Outcome.rateLimited 100))) ∧
    (retry (fun _ => Outcome.rateLimited 100) (fun _ => false)).2 ≠
      some RetryError.ctxCanceled ∧
    (retry (fun _ => Outcome.rateLimited 100) (fun _ => false)).2 ≠ none := by
  refine ⟨?_, ?_, ?_⟩ <;> decide

/-- C2 (amended): a call that fails rate-limited on every attempt is retried
(after waiting for the reset) only within the overall bound of `maxRetries`
attempts: with no cancellation observed it makes exactly `maxRetries` calls
and then surfaces the rate-limit error. -/
theorem rate_limit_retry_exhausts_max_attempts (resp : Nat → Outcome)
    (ctxDone : Nat → Bool) (R : Int)
    (hresp : ∀ n, resp n = Outcome.rateLimited R) (hctx : ∀ n, ctxDone n = false) :
    retry resp ctxDone = (maxRetries, some (RetryError.apiError (Outcome.rateLimited R))) :=
  retryFrom_rateLimited_all resp ctxDone R hresp hctx maxRetries 0 none (by decide)

/-- C2 (witness): the amended theorem applied at a concrete always-rate-limited
response stream. -/
theorem rate_limit_retry_exhausts_max_attempts_witness :
    retry (fun _ => Outcome.rateLimited 7) (fun _ => false) =
      (maxRetries, some (RetryError.apiError (Outcome.rateLimited 7))) :=
  rate_limit_retry_exhausts_max_attempts _ _ 7 (fun _ => rfl) (fun _ => rfl)

/-- C6: with cancellation never observed, a call that fails with the same
`5xx` status on every attempt makes exactly `maxRetries = 5` API calls and
then surfaces that error; a call that fails with a `4xx` status (outside the
rate-limit/abuse classifications) on its first attempt makes exactly one API
call and surfaces the error immediately. -/
theorem retry_attempt_counts (resp : Nat → Outcome) (ctxDone : Nat → Bool)
    (c4 c5 : Nat) (hctx : ∀ n, ctxDone n = false) :
    ((∀ n, resp n = Outcome.httpError c5) → 500 ≤ c5 →
      retry resp ctxDone = (maxRetries, some (RetryError.apiError (Outcome.httpError c5)))) ∧
    (resp 0 = Outcome.httpError c4 → 400 ≤ c4 → c4 < 500 →
      retry resp ctxDone = (1, some (RetryError.apiError (Outcome.httpError c4)))) := by
  constructor
  · intro h5 hc
    exact retryFrom_serverError_all resp ctxDone c5 h5 hctx hc maxRetries 0 none (by decide)
  · intro h4 _ hhi
    exact retryFrom_permanent_first resp ctxDone c4 0 4 none h4 (hctx 0) hhi

/-- C6 (witness): the attempt-count theorem applied at a persistent 503
stream and at a first-call 404. -/
theorem retry_attempt_counts_witness :
    retry (fun _ => Outcome.httpError 503) (fun _ => false) =
      (maxRetries, some (RetryError.apiError (Outcome.httpError 503))) ∧
    retry (fun _ => Outcome.httpError 404) (fun _ => false) =
      (1, some (RetryError.apiError (Outcome.httpError 404))) :=
  ⟨(retry_attempt_counts _ _ 404 503 (fun _ => rfl)).1 (fun _ => rfl) (by decide),
   (retry_attempt_counts _ _ 404 404 (fun _ => rfl)).2 rfl (by decide) (by decide)⟩

/-! ## Storage model: migration `000001_create_initial_tables.up.sql` and
`internal/database/query.sql`.  Timestamps are integers; `NOW()` is supplied
explicitly as a `now` argument; the `BIGSERIAL` id sequence is the
`nextRepoId` counter. -/

/-- Row of the `repositories` table. -/
structure Repository where
  id : Int
  githubRepoId : Int
  owner : String
  name : String
  description : String
  url : String
  language : String
  forksCount : Int
  starsCount : Int
  openIssuesCount : Int
  watchersCount : Int
  repoCreatedAt : Int
  repoUpdatedAt : Int
  lastSyncedAt : Option Int
  createdAt : Int
  updatedAt : Int
  deriving DecidableEq

/-- Row of the `commits` table. -/
structure Commit where
  sha : String
  repositoryId : Int
  authorName : String
  authorEmail : String
  message : String
  url : String
  commitDate : Int
  createdAt : Int
  deriving DecidableEq

/-- Database state: the two tables plus the id sequence for `repositories`. -/
structure DB where
  repositories : List Repository
  commits : List Commit
  nextRepoId : Int
  deriving DecidableEq

/-- Errors surfaced by the storage layer: `pgx.ErrNoRows`, a uniqueness
constraint violation, and connection-level failures. -/
inductive DBError where
  | noRows
  | uniqueViolation
  | connection
  deriving DecidableEq

/-- Query `GetRepositoryByOwnerAndName :one` — `SELECT * FROM repositories
WHERE owner = $1 AND name = $2 LIMIT 1` (`none` models `pgx.ErrNoRows`). -/
def GetRepositoryByOwnerAndName (db : DB) (owner name : String) : Option Repository :=
  db.repositories.find? (fun r => r.owner == owner && r.name == name)

/-- Parameters of `CreateRepository`. -/
structure CreateRepositoryParams where
  githubRepoId : Int
  owner : String
  name : String
  description : String
  url : String
  language : String
  forksCount : Int
  starsCount : Int
  openIssuesCount : Int
  watchersCount : Int
  repoCreatedAt : Int
  repoUpdatedAt : Int
  deriving DecidableEq

/-- Query `CreateRepository :one` — `INSERT INTO repositories (...) VALUES
(...) RETURNING *`.  `last_synced_at` is not in the column list, so it takes
its `NULL` default; `created_at`/`updated_at` default to `NOW()`; the
`UNIQUE` constraints on `github_repo_id` and `(owner, name)` reject
conflicting rows.  `createdRepoRow` is the inserted row. -/
def createdRepoRow (db : DB) (p : CreateRepositoryParams) (now : Int) : Repository :=
  { id := db.nextRepoId, githubRepoId := p.githubRepoId, owner := p.owner,
    name := p.name, description := p.description, url := p.url,
    language := p.language, forksCount := p.forksCount,
    starsCount := p.starsCount, openIssuesCount := p.openIssuesCount,
    watchersCount := p.watchersCount, repoCreatedAt := p.repoCreatedAt,
    repoUpdatedAt := p.repoUpdatedAt, lastSyncedAt := none,
    createdAt := now, updatedAt := now }

def CreateRepository (db : DB) (p : CreateRepositoryParams) (now : Int) :
    Except DBError (Repository × DB) :=
  if db.repositories.any (fun r =>
      r.githubRepoId == p.githubRepoId || (r.owner == p.owner && r.name == p.name)) then
    .error .uniqueViolation
  else
    .ok (createdRepoRow db p now,
         { repositories := db.repositories ++ [createdRepoRow db p now],
           commits := db.commits, nextRepoId := db.nextRepoId + 1 })

/-- Parameters of `UpdateRepositorySyncData`.  The defaults are the Go zero
values: a Go struct literal that names only some fields (as the zero-commit
touch does with `UpdateRepositorySyncDataParams{ID: dbRepo.ID}`) leaves the
rest at `""` / `0`. -/
structure UpdateRepositorySyncDataParams where
  id : Int
  description : String := ""
  language : String := ""
  forksCount : Int := 0
  starsCount : Int := 0
  openIssuesCount : Int := 0
  watchersCount : Int := 0
  repoUpdatedAt : Int := 0
  deriving DecidableEq

/-- Effect of `UpdateRepositorySyncData` on one row: the `SET` list assigns
description, language, the four counts, `repo_updated_at`, and sets both
`last_synced_at` and `updated_at` to `NOW()`; rows with a different id are
untouched. -/
def applySyncDataUpdate (p : UpdateRepositorySyncDataParams) (now : Int)
    (r : Repository) : Repository :=
  if r.id == p.id then
    { r with
      description := p.description, language := p.language,
      forksCount := p.forksCount, starsCount := p.starsCount,
      openIssuesCount := p.openIssuesCount, watchersCount := p.watchersCount,
      repoUpdatedAt := p.repoUpdatedAt, lastSyncedAt := some now,
      updatedAt := now }
  else r

/-- Query `UpdateRepositorySyncData :one` — `UPDATE repositories SET ...
WHERE id = $1 RETURNING *`; `pgx.ErrNoRows` when no row matches. -/
def UpdateRepositorySyncData (db : DB) (p : UpdateRepositorySyncDataParams)
    (now : Int) : Except DBError (Repository × DB) :=
  match db.repositories.find? (fun r => r.id == p.id) with
  | none => .error .noRows
  | some r =>
    .ok (applySyncDataUpdate p now r,
         { repositories := db.repositories.map (applySyncDataUpdate p now),
           commits := db.commits, nextRepoId := db.nextRepoId })

/-- Value of `MAX(commit_date)` over the commits of one repository
(`none` models the `NULL` aggregate over an empty set). -/
def latestCommitDate (commits : List Commit) (repoID : Int) : Option Int :=
  ((commits.filter (fun c => c.repositoryId == repoID)).map (fun c => c.commitDate)).max?

/-- Query `GetLatestCommitDateForRepo :one` — `SELECT MAX(commit_date) ...
WHERE repository_id = $1`. -/
def GetLatestCommitDateForRepo (db : DB) (repoID : Int) : Option Int :=
  latestCommitDate db.commits repoID

/-- Parameters of the `CreateCommits :copyfrom` bulk insert. -/
structure CreateCommitsParams where
  repositoryId : Int
  sha : String
  authorName : String
  authorEmail : String
  message : String
  url : String
  commitDate : Int
  deriving DecidableEq

/-- Row produced by inserting one `CreateCommitsParams`
(`created_at` defaults to `NOW()`). -/
def commitOfParams (p : CreateCommitsParams) (now : Int) : Commit :=
  { sha := p.sha, repositoryId := p.repositoryId, authorName := p.authorName,
    authorEmail := p.authorEmail, message := p.message, url := p.url,
    commitDate := p.commitDate, createdAt := now }

/-- Whether a batch contains two rows with the same `(repository_id, sha)`
primary key. -/
def paramsClashWithin : List CreateCommitsParams → Bool
  | [] => false
  | p :: rest =>
    rest.any (fun q => q.repositoryId == p.repositoryId && q.sha == p.sha) ||
      paramsClashWithin rest

/-- Query `CreateCommits :copyfrom` — bulk `INSERT INTO commits ...`,
returning the number of rows inserted; the `(repository_id, sha)` primary
key rejects a batch clashing with stored rows or within itself. -/
def CreateCommits (db : DB) (ps : List CreateCommitsParams) (now : Int) :
    Except DBError (Int × DB) :=
  if ps.any (fun p => db.commits.any (fun c =>
      c.repositoryId == p.repositoryId && c.sha == p.sha)) || paramsClashWithin ps then
    .error .uniqueViolation
  else
    .ok ((ps.length : Int),
         { repositories := db.repositories,
           commits := db.commits ++ ps.map (fun p => commitOfParams p now),
           nextRepoId := db.nextRepoId })

/-! ## Syncer: `internal/syncer/syncer.go` -/

/-- `RepoIdentifier` — owner and name of a repository. -/
structure RepoIdentifier where
  owner : String
  name : String
  deriving DecidableEq

/-- `internal/errors.ErrInvalidRepoFormat` — configuration error carrying the
malformed repository string. -/
structure ErrInvalidRepoFormat where
  repo : String
  deriving DecidableEq

/-- Splitting of a character list at every `/`, the semantics of Go's
`strings.Split(r, "/")` (the separator is a single ASCII character, so byte
and scalar-value splitting coincide): `Split` of the empty string is `[""]`,
adjacent separators yield empty fields. -/
def splitSlashChars : List Char → List (List Char)
  | [] => [[]]
  | ch :: rest =>
    if ch = '/' then [] :: splitSlashChars rest
    else
      match splitSlashChars rest with
      | [] => [[ch]]
      | grp :: grps => (ch :: grp) :: grps

/-- Go `strings.Split(s, "/")`. -/
def splitOnSlash (s : String) : List String :=
  (splitSlashChars s.data).map (fun cs => String.mk cs)

/-- `parseRepoIdentifiers`: split each string on `/`; reject unless there are
exactly two non-empty parts; the first malformed string aborts construction
with `ErrInvalidRepoFormat`. -/
def parseRepoIdentifiers : List String → Except ErrInvalidRepoFormat (List RepoIdentifier)
  | [] => .ok []
  | r :: rest =>
    let parts := splitOnSlash r
    if parts.length ≠ 2 ∨ parts.getD 0 "" = "" ∨ parts.getD 1 "" = "" then
      .error { repo := r }
    else
      match parseRepoIdentifiers rest with
      | .error e => .error e
      | .ok ids => .ok ({ owner := parts.getD 0 "", name := parts.getD 1 "" } :: ids)

/-- `model.Repository` — repository metadata as fetched from the provider
(`Description` and `Language` are nullable pointers in Go). -/
structure ModelRepository where
  githubRepoId : Int
  owner : String
  name : String
  description : Option String
  url : String
  language : Option String
  forksCount : Int
  starsCount : Int
  openIssuesCount : Int
  watchersCount : Int
  repoCreatedAt : Int
  repoUpdatedAt : Int
  deriving DecidableEq

/-- `model.Commit` — one commit as fetched from the provider. -/
structure ModelCommit where
  sha : String
  authorName : String
  authorEmail : String
  message : String
  url : String
  commitDate : Int
  deriving DecidableEq

/-- Go `sql.NullString`. -/
structure NullString where
  string : String
  valid : Bool
  deriving DecidableEq

/-- `toSQLNullString` from `internal/syncer/syncer.go`: a nil pointer gives
the zero `NullString`; otherwise the pointee with `Valid = (s != "")`. -/
def toSQLNullString : Option String → NullString
  | none => { string := "", valid := false }
  | some s => { string := s, valid := s != "" }

/-- `prepareCommitBulkInsert`: translate fetched commits into bulk-insert
parameter rows for one repository. -/
def prepareCommitBulkInsert (repoID : Int) (commits : List ModelCommit) :
    List CreateCommitsParams :=
  commits.map (fun c =>
    { repositoryId := repoID, sha := c.sha, authorName := c.authorName,
      authorEmail := c.authorEmail, message := c.message, url := c.url,
      commitDate := c.commitDate })

/-- Failure kinds of the resilient fetcher as seen by the syncer. -/
inductive FetchError where
  | permanent
  | transient
  | canceled
  deriving DecidableEq

/-- Error propagated out of one sync unit: a fetcher failure or a storage
failure. -/
inductive SyncError where
  | fetch (e : FetchError)
  | db (e : DBError)
  deriving DecidableEq

/-- Environment of one sync unit: the results the GitHub client produces for
this repository — the metadata fetch, and the commit fetch as a function of
the `since` watermark it is called with. -/
structure FetchEnv where
  metadataResult : Except FetchError ModelRepository
  commitsResult : Int → Except FetchError (List ModelCommit)

/-- `Syncer.upsertRepository`: look up by `(owner, name)`; on `pgx.ErrNoRows`
insert a new row from the fetched metadata, otherwise update the mutable
metadata of the existing row. -/
def upsertRepository (db : DB) (repo : ModelRepository) (now : Int) :
    Except DBError (Repository × DB) :=
  match GetRepositoryByOwnerAndName db repo.owner repo.name with
  | none =>
    CreateRepository db
      { githubRepoId := repo.githubRepoId, owner := repo.owner, name := repo.name,
        description := (toSQLNullString repo.description).string, url := repo.url,
        language := (toSQLNullString repo.language).string,
        forksCount := repo.forksCount, starsCount := repo.starsCount,
        openIssuesCount := repo.openIssuesCount, watchersCount := repo.watchersCount,
        repoCreatedAt := repo.repoCreatedAt, repoUpdatedAt := repo.repoUpdatedAt } now
  | some existingRepo =>
    UpdateRepositorySyncData db
      { id := existingRepo.id,
        description := (toSQLNullString repo.description).string,
        language := (toSQLNullString repo.language).string,
        forksCount := repo.forksCount, starsCount := repo.starsCount,
        openIssuesCount := repo.openIssuesCount, watchersCount := repo.watchersCount,
        repoUpdatedAt := repo.repoUpdatedAt } now

/-- `Syncer.getSinceTimestamp`: the configured default when the repository has
no stored commit, otherwise the latest stored commit date plus one second. -/
def getSinceTimestamp (db : DB) (defaultSince : Int) (repoID : Int) : Int :=
  match GetLatestCommitDateForRepo db repoID with
  | none => defaultSince
  | some t => t + 1

/-- `Syncer.syncRepo`: fetch metadata, upsert the repository row, compute the
watermark, fetch commits since it; with zero commits touch the row through
`UpdateRepositorySyncData` with only the id set, otherwise bulk-insert the
commits.  Every step's error aborts the unit. -/
def syncRepo (env : FetchEnv) (defaultSince : Int) (db : DB) (now : Int) :
    Except SyncError DB :=
  match env.metadataResult with
  | .error e => .error (.fetch e)
  | .ok ghRepo =>
    match upsertRepository db ghRepo now with
    | .error e => .error (.db e)
    | .ok (dbRepo, db1) =>
      let since := getSinceTimestamp db1 defaultSince dbRepo.id
      match env.commitsResult since with
      | .error e => .error (.fetch e)
      | .ok commits =>
        if commits.isEmpty then
          match UpdateRepositorySyncData db1 { id := dbRepo.id } now with
          | .error e => .error (.db e)
          | .ok (_, db2) => .ok db2
        else
          match CreateCommits db1 (prepareCommitBulkInsert dbRepo.id commits) now with
          | .error e => .error (.db e)
          | .ok (_, db3) => .ok db3

/-- Transaction environment: whether `dbpool.Begin` and `tx.Commit` succeed
(connection-level effects external to the unit's own logic). -/
structure TxEnv where
  beginOk : Bool
  commitOk : Bool
  deriving DecidableEq

/-- `Syncer.syncRepoInTransaction`: begin, run `syncRepo` against the
transaction, commit on success; the deferred rollback discards every write of
the unit when any step (or the commit itself) fails, leaving the stored state
as it was. -/
def syncRepoInTransaction (tenv : TxEnv) (env : FetchEnv) (defaultSince : Int)
    (db : DB) (now : Int) : Except SyncError Unit × DB :=
  if tenv.beginOk then
    match syncRepo env defaultSince db now with
    | .error e => (.error e, db)
    | .ok dbNew => if tenv.commitOk then (.ok (), dbNew) else (.error (.db .connection), db)
  else (.error (.db .connection), db)

/-! ## Orchestrator: `Syncer.runSyncCycle`.

The cycle dispatches every configured identifier into an
`errgroup.WithContext` group with `SetLimit(concurrency)`.  Two aspects are
modelled separately: (a) the error-flow of the group — each worker closure
checks `gctx.Err()`, runs its unit, logs non-cancellation errors, and always
returns `nil`, while `errgroup.WithContext` cancels `gctx` as soon as any
worker returns a non-nil error; and (b) the `SetLimit` scheduling bound, as a
small-step worker-pool system.  For (a) the workers are sequentialised: each
unit runs against its own per-repository world (environment, transaction,
state), which is faithful because a unit only touches its own repository's
rows. -/

/-- Constant `concurrency = 5` from `internal/syncer/syncer.go` — the number
of repositories synced in parallel (`g.SetLimit(concurrency)`). -/
def concurrency : Nat := 5

/-- Everything one repository's sync unit depends on. -/
structure SyncWorld where
  tenv : TxEnv
  env : FetchEnv
  defaultSince : Int
  db : DB
  now : Int

/-- Whether an error is the context's cancellation error
(`errors.Is(err, context.Canceled)`), which the worker does not log. -/
def isCanceledErr : SyncError → Bool
  | .fetch .canceled => true
  | _ => false

/-- Observable record of one dispatched worker: whether its unit actually ran
(`gctx.Err() == nil` at entry), the unit's result and final state, and
whether the worker logged a failure. -/
structure CycleEntry where
  repoId : RepoIdentifier
  ran : Bool
  result : Option (Except SyncError Unit × DB)
  loggedError : Bool

/-- Body of the worker closure in `runSyncCycle`: run
`syncRepoInTransaction` for this repository and log the error unless it is
the cancellation error. -/
def workerBody (w : SyncWorld) (id : RepoIdentifier) : CycleEntry :=
  let r := syncRepoInTransaction w.tenv w.env w.defaultSince w.db w.now
  { repoId := id, ran := true, result := some r,
    loggedError := match r.1 with
      | .error e => !isCanceledErr e
      | .ok _ => false }

/-- Return value of the worker closure handed to `g.Go`: the closure always
returns `nil`, whatever the unit did. -/
def workerReturn (_ : CycleEntry) : Option SyncError := none

/-- Sequentialised `errgroup` run of the cycle: `gcancelled` models
`gctx.Err() != nil`, which `errgroup.WithContext` switches on as soon as some
worker returns a non-nil error; a worker seeing it skips its unit and
returns `nil`. -/
def runSyncCycleFrom (worlds : RepoIdentifier → SyncWorld) :
    List RepoIdentifier → Bool → List CycleEntry
  | [], _ => []
  | id :: rest, gcancelled =>
    if gcancelled then
      let entry : CycleEntry :=
        { repoId := id, ran := false, result := none, loggedError := false }
      entry :: runSyncCycleFrom worlds rest (gcancelled || (workerReturn entry).isSome)
    else
      let entry := workerBody (worlds id) id
      entry :: runSyncCycleFrom worlds rest (gcancelled || (workerReturn entry).isSome)

/-- `Syncer.runSyncCycle`: dispatch every configured identifier; the group
context starts uncancelled. -/
def runSyncCycle (worlds : RepoIdentifier → SyncWorld)
    (repos : List RepoIdentifier) : List CycleEntry :=
  runSyncCycleFrom worlds repos false

/-- State of the bounded worker pool created by `g.SetLimit(concurrency)`:
identifiers not yet dispatched, units currently executing, units finished. -/
structure PoolState where
  pending : List RepoIdentifier
  running : List RepoIdentifier
  done : List RepoIdentifier

/-- Small-step semantics of the bounded pool: `g.Go` blocks while
`concurrency` units are active, so a dispatch step requires a free slot;
a finish step retires any running unit. -/
inductive PoolStep (K : Nat) : PoolState → PoolState → Prop where
  | dispatch (id : RepoIdentifier) (rest run dn : List RepoIdentifier) :
      run.length < K →
      PoolStep K ⟨id :: rest, run, dn⟩ ⟨rest, id :: run, dn⟩
  | finish (id : RepoIdentifier) (pend run1 run2 dn : List RepoIdentifier) :
      PoolStep K ⟨pend, run1 ++ id :: run2, dn⟩ ⟨pend, run1 ++ run2, id :: dn⟩

/-- Reflexive-transitive closure of `PoolStep`. -/
inductive PoolReach (K : Nat) : PoolState → PoolState → Prop where
  | refl (s : PoolState) : PoolReach K s s
  | step (s t u : PoolState) : PoolReach K s t → PoolStep K t u → PoolReach K s u

/-- Start of a cycle: all identifiers pending, no unit running. -/
def initPool (repos : List RepoIdentifier) : PoolState :=
  { pending := repos, running := [], done := [] }

/-! ## Helper lemmas -/

/-- A `some` result of `List.max?` over the integers is a member and an upper
bound. -/
lemma int_max?_spec (l : List Int) (M : Int) (h : l.max? = some M) :
    M ∈ l ∧ ∀ t ∈ l, t ≤ M := by
  have : Std.Antisymm (α := Int) (· ≤ ·) := ⟨@le_antisymm Int _⟩
  rw [List.max?_eq_some_iff] at h
  · exact h
  all_goals simp [le_total]

/-- A member that is an upper bound is the `List.max?` of an integer list. -/
lemma int_max?_of_spec (l : List Int) (M : Int) (hM : M ∈ l)
    (hub : ∀ t ∈ l, t ≤ M) : l.max? = some M := by
  have : Std.Antisymm (α := Int) (· ≤ ·) := ⟨@le_antisymm Int _⟩
  rw [List.max?_eq_some_iff]
  · exact ⟨hM, hub⟩
  all_goals simp [le_total]

/-- `List.max?` is `none` only on the empty list. -/
lemma int_max?_none (l : List Int) (h : l.max? = none) : l = [] := by
  rwa [List.max?_eq_none_iff] at h

/-- `find?` over a mapped list, when the predicate is invariant under the
mapped function. -/
lemma find?_map_invariant (f : Repository → Repository) (p : Repository → Bool)
    (l : List Repository) (hf : ∀ r, p (f r) = p r) :
    (l.map f).find? p = (l.find? p).map f := by
  rw [List.find?_map]
  have hpf : p ∘ f = p := funext hf
  rw [hpf]

/-- `applySyncDataUpdate` never changes the row's id. -/
lemma applySyncDataUpdate_id (p : UpdateRepositorySyncDataParams) (now : Int)
    (r : Repository) : (applySyncDataUpdate p now r).id = r.id := by
  unfold applySyncDataUpdate; split <;> rfl

/-- `applySyncDataUpdate` never changes the row's owner. -/
lemma applySyncDataUpdate_owner (p : UpdateRepositorySyncDataParams) (now : Int)
    (r : Repository) : (applySyncDataUpdate p now r).owner = r.owner := by
  unfold applySyncDataUpdate; split <;> rfl

/-- `applySyncDataUpdate` never changes the row's name. -/
lemma applySyncDataUpdate_name (p : UpdateRepositorySyncDataParams) (now : Int)
    (r : Repository) : (applySyncDataUpdate p now r).name = r.name := by
  unfold applySyncDataUpdate; split <;> rfl

/-- Identity and immutable fields of a repository row: everything the
`UpdateRepositorySyncData` `SET` list does not touch. -/
structure RepoIdentity where
  id : Int
  githubRepoId : Int
  owner : String
  name : String
  url : String
  repoCreatedAt : Int
  createdAt : Int
  deriving DecidableEq

/-- Projection of a row to its identity and immutable fields. -/
def repoIdentityOf (r : Repository) : RepoIdentity :=
  { id := r.id, githubRepoId := r.githubRepoId, owner := r.owner,
    name := r.name, url := r.url, repoCreatedAt := r.repoCreatedAt,
    createdAt := r.createdAt }

/-- `applySyncDataUpdate` only changes metadata and timestamp fields. -/
lemma applySyncDataUpdate_identity (p : UpdateRepositorySyncDataParams)
    (now : Int) (r : Repository) :
    repoIdentityOf (applySyncDataUpdate p now r) = repoIdentityOf r := by
  unfold applySyncDataUpdate repoIdentityOf; split <;> rfl

/-- A successful `CreateRepository` appends exactly the new row. -/
lemma CreateRepository_ok (db : DB) (p : CreateRepositoryParams) (now : Int)
    (r : Repository) (db' : DB) (hok : CreateRepository db p now = .ok (r, db')) :
    r = createdRepoRow db p now ∧
    db' = { repositories := db.repositories ++ [createdRepoRow db p now],
            commits := db.commits, nextRepoId := db.nextRepoId + 1 } := by
  unfold CreateRepository at hok
  split at hok
  · cases hok
  · simp only [Except.ok.injEq, Prod.mk.injEq] at hok
    exact ⟨hok.1.symm, hok.2.symm⟩

/-- A successful `UpdateRepositorySyncData` maps the update over the table
and returns the updated first id-match. -/
lemma UpdateRepositorySyncData_ok (db : DB) (p : UpdateRepositorySyncDataParams)
    (now : Int) (r : Repository) (db' : DB)
    (hok : UpdateRepositorySyncData db p now = .ok (r, db')) :
    ∃ r0, db.repositories.find? (fun x => x.id == p.id) = some r0 ∧
      r = applySyncDataUpdate p now r0 ∧
      db' = { repositories := db.repositories.map (applySyncDataUpdate p now),
              commits := db.commits, nextRepoId := db.nextRepoId } := by
  unfold UpdateRepositorySyncData at hok
  cases hfind : db.repositories.find? (fun x => x.id == p.id) with
  | none => rw [hfind] at hok; cases hok
  | some r0 =>
    rw [hfind] at hok
    simp only [Except.ok.injEq, Prod.mk.injEq] at hok
    exact ⟨r0, rfl, hok.1.symm, hok.2.symm⟩

/-- `UpdateRepositorySyncData` succeeds when some stored row has the id,
and the returned row carries that id. -/
lemma UpdateRepositorySyncData_of_mem (db : DB) (p : UpdateRepositorySyncDataParams)
    (now : Int) (X : Repository) (hX : X ∈ db.repositories) (hid : X.id = p.id) :
    ∃ r0, db.repositories.find? (fun x => x.id == p.id) = some r0 ∧
      UpdateRepositorySyncData db p now =
        .ok (applySyncDataUpdate p now r0,
             { repositories := db.repositories.map (applySyncDataUpdate p now),
               commits := db.commits, nextRepoId := db.nextRepoId }) ∧
      r0.id = p.id := by
  have hsome : (db.repositories.find? (fun x => x.id == p.id)).isSome :=
    List.find?_isSome.mpr ⟨X, hX, by simp [hid]⟩
  obtain ⟨r0, hr0⟩ := Option.isSome_iff_exists.mp hsome
  refine ⟨r0, hr0, ?_, by simpa using List.find?_some hr0⟩
  unfold UpdateRepositorySyncData
  rw [hr0]

/-- A successful `CreateCommits` leaves the repositories table unchanged and
appends exactly the batch. -/
lemma CreateCommits_ok (db : DB) (ps : List CreateCommitsParams) (now : Int)
    (n : Int) (db' : DB) (hok : CreateCommits db ps now = .ok (n, db')) :
    db' = { repositories := db.repositories,
            commits := db.commits ++ ps.map (fun p => commitOfParams p now),
            nextRepoId := db.nextRepoId } := by
  unfold CreateCommits at hok
  split at hok
  · cases hok
  · simp only [Except.ok.injEq, Prod.mk.injEq] at hok
    exact hok.2.symm

/-- A successful upsert leaves the commits table unchanged, and afterwards
the `(owner, name)` lookup finds a row carrying the returned row's id. -/
lemma upsertRepository_ok_lookup (db : DB) (meta : ModelRepository) (now : Int)
    (r : Repository) (db' : DB) (hok : upsertRepository db meta now = .ok (r, db')) :
    db'.commits = db.commits ∧
    ∃ X, GetRepositoryByOwnerAndName db' meta.owner meta.name = some X ∧
      X.id = r.id := by
  unfold upsertRepository at hok
  cases hl : GetRepositoryByOwnerAndName db meta.owner meta.name with
  | none =>
    rw [hl] at hok
    obtain ⟨hr, hdb⟩ := CreateRepository_ok _ _ _ _ _ hok
    subst hdb
    refine ⟨rfl, r, ?_, rfl⟩
    unfold GetRepositoryByOwnerAndName at hl ⊢
    rw [List.find?_append, hl]
    simp [hr, createdRepoRow]
  | some e0 =>
    rw [hl] at hok
    obtain ⟨r0, hfind, hr, hdb⟩ := UpdateRepositorySyncData_ok _ _ _ _ _ hok
    subst hdb
    refine ⟨rfl, ?_⟩
    have hid0 : r0.id = e0.id := by simpa using List.find?_some hfind
    unfold GetRepositoryByOwnerAndName at hl ⊢
    rw [find?_map_invariant _ _ _ (fun x => by
      rw [applySyncDataUpdate_owner, applySyncDataUpdate_name]), hl]
    refine ⟨_, rfl, ?_⟩
    rw [applySyncDataUpdate_id, hr, applySyncDataUpdate_id, hid0]

/-! ## Claim theorems -/

/-- C4: for every sync unit, if any step fails — modelled by arbitrary fetch
environment, transaction environment and database — the transaction leaves
the stored state exactly as it was before the unit started and the error is
propagated to the orchestrator; the stored state changes only when the final
commit succeeds. -/
theorem transaction_rollback_on_error (tenv : TxEnv) (env : FetchEnv)
    (defaultSince : Int) (db : DB) (now : Int) :
    (∀ e, (syncRepoInTransaction tenv env defaultSince db now).1 = .error e →
      (syncRepoInTransaction tenv env defaultSince db now).2 = db) ∧
    (∀ e, tenv.beginOk = true → syncRepo env defaultSince db now = .error e →
      (syncRepoInTransaction tenv env defaultSince db now).1 = .error e) ∧
    ((syncRepoInTransaction tenv env defaultSince db now).2 ≠ db →
      (syncRepoInTransaction tenv env defaultSince db now).1 = .ok () ∧
        tenv.commitOk = true) := by
  obtain ⟨b, c⟩ := tenv
  cases b <;> cases c <;>
    cases hs : syncRepo env defaultSince db now <;>
      simp_all [syncRepoInTransaction]

/-- Fetch environment whose metadata fetch fails permanently (used as a
concrete failing step). -/
def envErrC4 : FetchEnv :=
  { metadataResult := .error .permanent, commitsResult := fun _ => .error .permanent }

/-- An empty database. -/
def dbEmptyC4 : DB := { repositories := [], commits := [], nextRepoId := 1 }

/-- C4 (witness): at a concrete failing metadata fetch the transaction
returns the database unchanged and surfaces the error. -/
theorem transaction_rollback_on_error_witness :
    (syncRepoInTransaction ⟨true, true⟩ envErrC4 0 dbEmptyC4 0).2 = dbEmptyC4 ∧
    (syncRepoInTransaction ⟨true, true⟩ envErrC4 0 dbEmptyC4 0).1 =
      .error (.fetch .permanent) :=
  ⟨(transaction_rollback_on_error ⟨true, true⟩ envErrC4 0 dbEmptyC4 0).1
      (.fetch .permanent) rfl,
   (transaction_rollback_on_error ⟨true, true⟩ envErrC4 0 dbEmptyC4 0).2.1
      (.fetch .permanent) rfl rfl⟩

/-- C9: in the bounded worker pool with limit `concurrency` (= 5 in the
code), every state reachable from the start of a cycle has at most
`concurrency` units running simultaneously. -/
theorem pool_concurrency_bound (repos : List RepoIdentifier) (s : PoolState)
    (h : PoolReach concurrency (initPool repos) s) :
    s.running.length ≤ concurrency := by
  induction h with
  | refl => simp [initPool]
  | step t u hreach hstep ih =>
    cases hstep with
    | dispatch id rest run dn hlt =>
      simp only [List.length_cons]
      omega
    | finish id pend run1 run2 dn =>
      simp only [List.length_append, List.length_cons] at ih ⊢
      omega

/-- C9 (witness): a concrete reachable state — one unit dispatched out of
one pending — respects the bound. -/
theorem pool_concurrency_bound_witness :
    ({ pending := [], running := [⟨"acme", "widgets"⟩], done := [] } :
      PoolState).running.length ≤ concurrency :=
  pool_concurrency_bound [⟨"acme", "widgets"⟩] _
    (PoolReach.step _ _ _ (PoolReach.refl _)
      (PoolStep.dispatch ⟨"acme", "widgets"⟩ [] [] [] (by decide)))

/-- C8: a cycle runs every dispatched unit — each with exactly the outcome it
would have alone, because the worker closure always returns nil so the group
context is never cancelled by a failing unit — and a unit failing with a
non-cancellation error is logged at the worker boundary. -/
theorem cycle_failure_isolation (worlds : RepoIdentifier → SyncWorld)
    (repos : List RepoIdentifier) :
    runSyncCycle worlds repos = repos.map (fun id => workerBody (worlds id) id) ∧
    (∀ id, (workerBody (worlds id) id).ran = true) ∧
    (∀ id e, (syncRepoInTransaction (worlds id).tenv (worlds id).env
        (worlds id).defaultSince (worlds id).db (worlds id).now).1 = .error e →
      isCanceledErr e = false → (workerBody (worlds id) id).loggedError = true) := by
  refine ⟨?_, fun id => rfl, ?_⟩
  · show runSyncCycleFrom worlds repos false = _
    induction repos with
    | nil => rfl
    | cons id rest ih =>
      simp only [runSyncCycleFrom, Bool.false_eq_true, if_false, workerReturn,
        Option.isSome_none, Bool.or_false, List.map_cons]
      exact congrArg _ ih
  · intro id e he hc
    simp [workerBody, he, hc]

/-- Per-repository worlds for the cycle witness: the repository named
"bad/bad" gets a permanently failing metadata fetch, every other repository
an empty-but-successful world. -/
def worldsC8 : RepoIdentifier → SyncWorld := fun id =>
  if id.owner == "bad" then
    { tenv := ⟨true, true⟩,
      env := { metadataResult := .error .permanent,
               commitsResult := fun _ => .error .permanent },
      defaultSince := 0,
      db := { repositories := [], commits := [], nextRepoId := 1 },
      now := 0 }
  else
    { tenv := ⟨true, true⟩,
      env := { metadataResult := .error .transient,
               commitsResult := fun _ => .ok [] },
      defaultSince := 0,
      db := { repositories := [], commits := [], nextRepoId := 1 },
      now := 0 }

/-- C8 (witness): the isolation theorem applied at a concrete two-repository
cycle in which one unit fails. -/
theorem cycle_failure_isolation_witness :
    runSyncCycle worldsC8 [⟨"bad", "bad"⟩, ⟨"good", "good"⟩] =
      [⟨"bad", "bad"⟩, ⟨"good", "good"⟩].map
        (fun id => workerBody (worldsC8 id) id) ∧
    (workerBody (worldsC8 ⟨"bad", "bad"⟩) ⟨"bad", "bad"⟩).loggedError = true :=
  ⟨(cycle_failure_isolation worldsC8 [⟨"bad", "bad"⟩, ⟨"good", "good"⟩]).1,
   (cycle_failure_isolation worldsC8 [⟨"bad", "bad"⟩, ⟨"good", "good"⟩]).2.2
      ⟨"bad", "bad"⟩ (.fetch .permanent) rfl rfl⟩

/-- C3: the watermark is the configured default when the repository has zero
stored commits, and the maximum stored commit date plus one second when at
least one commit is stored. -/
theorem watermark_correct (db : DB) (d : Int) (repoID : Int) :
    (db.commits.filter (fun c => c.repositoryId == repoID) = [] →
      getSinceTimestamp db d repoID = d) ∧
    (∀ T, T ∈ (db.commits.filter (fun c => c.repositoryId == repoID)).map
        (fun c => c.commitDate) →
      (∀ t ∈ (db.commits.filter (fun c => c.repositoryId == repoID)).map
        (fun c => c.commitDate), t ≤ T) →
      getSinceTimestamp db d repoID = T + 1) := by
  constructor
  · intro h
    unfold getSinceTimestamp GetLatestCommitDateForRepo latestCommitDate
    rw [h]
    rfl
  · intro T hmem hub
    unfold getSinceTimestamp GetLatestCommitDateForRepo latestCommitDate
    rw [int_max?_of_spec _ T hmem hub]

/-- Concrete commit table for the watermark witness: repository 1 stores
commits dated 5 and 9, repository 2 stores one dated 50. -/
def dbC3 : DB :=
  { repositories := [],
    commits :=
      [{ sha := "a", repositoryId := 1, authorName := "n", authorEmail := "e",
         message := "m", url := "u", commitDate := 5, createdAt := 0 },
       { sha := "b", repositoryId := 1, authorName := "n", authorEmail := "e",
         message := "m", url := "u", commitDate := 9, createdAt := 0 },
       { sha := "c", repositoryId := 2, authorName := "n", authorEmail := "e",
         message := "m", url := "u", commitDate := 50, createdAt := 0 }],
    nextRepoId := 1 }

/-- C3 (witness): repository 3 has no stored commits so the default 42 is
used; repository 1 has maximum stored date 9 so the watermark is 10. -/
theorem watermark_correct_witness :
    getSinceTimestamp dbC3 42 3 = 42 ∧ getSinceTimestamp dbC3 42 1 = 10 :=
  ⟨(watermark_correct dbC3 42 3).1 (by decide),
   (watermark_correct dbC3 42 1).2 9 (by decide) (by decide)⟩

/-- The parser's rejection test fails exactly on strings that split into two
non-empty parts. -/
lemma goodForm_iff (r : String) :
    (¬ ((splitOnSlash r).length ≠ 2 ∨ (splitOnSlash r).getD 0 "" = "" ∨
        (splitOnSlash r).getD 1 "" = "")) ↔
      ∃ ow nm, splitOnSlash r = [ow, nm] ∧ ow ≠ "" ∧ nm ≠ "" := by
  push_neg
  constructor
  · rintro ⟨hlen, h0, h1⟩
    cases hl : splitOnSlash r with
    | nil => rw [hl] at hlen; simp at hlen
    | cons a t =>
      cases t with
      | nil => rw [hl] at hlen; simp at hlen
      | cons b t2 =>
        cases t2 with
        | nil =>
          rw [hl] at h0 h1
          exact ⟨a, b, rfl, by simpa using h0, by simpa using h1⟩
        | cons c t3 => rw [hl] at hlen; simp at hlen
  · rintro ⟨ow, nm, heq, how, hnm⟩
    rw [heq]
    exact ⟨rfl, by simpa using how, by simpa using hnm⟩

/-- C7: parsing a list of repository identifier strings succeeds exactly when
every string splits on the separator into one non-empty owner and one
non-empty name, in which case it yields exactly those identifiers; any other
form fails with the configuration error, so construction aborts. -/
theorem parse_repo_identifiers_correct (repos : List String) :
    ((∃ ids, parseRepoIdentifiers repos = .ok ids) ↔
      ∀ r ∈ repos, ∃ ow nm, splitOnSlash r = [ow, nm] ∧ ow ≠ "" ∧ nm ≠ "") ∧
    (∀ ids, parseRepoIdentifiers repos = .ok ids →
      ids = repos.map (fun r =>
        { owner := (splitOnSlash r).getD 0 "",
          name := (splitOnSlash r).getD 1 "" })) := by
  induction repos with
  | nil =>
    refine ⟨⟨fun _ r hr => absurd hr (List.not_mem_nil r), fun _ => ⟨[], rfl⟩⟩, ?_⟩
    intro ids h
    simp only [parseRepoIdentifiers, Except.ok.injEq] at h
    simp [h.symm]
  | cons r rest ih =>
    obtain ⟨ih1, ih2⟩ := ih
    by_cases hbad : ((splitOnSlash r).length ≠ 2 ∨ (splitOnSlash r).getD 0 "" = "" ∨
        (splitOnSlash r).getD 1 "" = "")
    · refine ⟨⟨?_, ?_⟩, ?_⟩
      · rintro ⟨ids, hids⟩
        simp only [parseRepoIdentifiers, if_pos hbad] at hids
        exact Except.noConfusion hids
      · intro hall
        exact absurd hbad ((goodForm_iff r).mpr (hall r (List.mem_cons_self r rest)))
      · intro ids hids
        simp only [parseRepoIdentifiers, if_pos hbad] at hids
        exact Except.noConfusion hids
    · refine ⟨⟨?_, ?_⟩, ?_⟩
      · rintro ⟨ids, hids⟩ s hs
        rcases List.mem_cons.mp hs with hs | hs
        · subst hs; exact (goodForm_iff s).mp hbad
        · refine (ih1.mp ?_) s hs
          simp only [parseRepoIdentifiers, if_neg hbad] at hids
          cases hrest : parseRepoIdentifiers rest with
          | error e => rw [hrest] at hids; exact Except.noConfusion hids
          | ok ids2 => exact ⟨ids2, rfl⟩
      · intro hall
        obtain ⟨ids2, hids2⟩ := ih1.mpr (fun s hs => hall s (List.mem_cons_of_mem r hs))
        refine ⟨{ owner := (splitOnSlash r).getD 0 "",
                  name := (splitOnSlash r).getD 1 "" } :: ids2, ?_⟩
        simp only [parseRepoIdentifiers, if_neg hbad, hids2]
      · intro ids hids
        simp only [parseRepoIdentifiers, if_neg hbad] at hids
        cases hrest : parseRepoIdentifiers rest with
        | error e => rw [hrest] at hids; exact Except.noConfusion hids
        | ok ids2 =>
          rw [hrest] at hids
          simp only [Except.ok.injEq] at hids
          rw [← hids, ih2 ids2 hrest]
          simp

/-- C7 (witness): the parsing theorem applied to a concrete mixed list —
two well-formed identifiers parse to their owner/name pairs, and a list
containing a malformed string cannot parse. -/
theorem parse_repo_identifiers_correct_witness :
    (∃ ids, parseRepoIdentifiers ["golang/go", "acme/widgets"] = .ok ids) ∧
    (∀ ids, parseRepoIdentifiers ["golang/go", "acme/widgets"] = .ok ids →
      ids = [⟨"golang", "go"⟩, ⟨"acme", "widgets"⟩]) ∧
    ¬ ∃ ids, parseRepoIdentifiers ["golang/go", "nest/ed/deep"] = .ok ids :=
  ⟨(parse_repo_identifiers_correct ["golang/go", "acme/widgets"]).1.mpr (by
    intro s hs
    rcases List.mem_cons.mp hs with h | h
    · exact h ▸ ⟨"golang", "go", by decide, by decide, by decide⟩
    · rcases List.mem_cons.mp h with h2 | h2
      · exact h2 ▸ ⟨"acme", "widgets", by decide, by decide, by decide⟩
      · exact absurd h2 (List.not_mem_nil s)),
   fun ids h => by
    rw [(parse_repo_identifiers_correct ["golang/go", "acme/widgets"]).2 ids h]
    decide,
   fun hex => by
    obtain ⟨ow, nm, heq, how, hnm⟩ :=
      (parse_repo_identifiers_correct ["golang/go", "nest/ed/deep"]).1.mp hex
        "nest/ed/deep" (by decide)
    have hlen : (splitOnSlash "nest/ed/deep").length = 2 := by rw [heq]; rfl
    revert hlen
    decide⟩

/-- Fetched metadata for the zero-commit-touch scenario: live values
description "desc", language "go", 1 fork, 20 stars, 2 open issues,
3 watchers, provider-updated-at 50. -/
def metaC1 : ModelRepository :=
  { githubRepoId := 7, owner := "acme", name := "widgets",
    description := some "desc", url := "https://x", language := some "go",
    forksCount := 1, starsCount := 20, openIssuesCount := 2,
    watchersCount := 3, repoCreatedAt := 0, repoUpdatedAt := 50 }

/-- Stored repository row before the sync: stale metadata. -/
def rowC1 : Repository :=
  { id := 1, githubRepoId := 7, owner := "acme", name := "widgets",
    description := "old", url := "https://x", language := "c",
    forksCount := 9, starsCount := 5, openIssuesCount := 9,
    watchersCount := 9, repoCreatedAt := 0, repoUpdatedAt := 10,
    lastSyncedAt := none, createdAt := 0, updatedAt := 0 }

/-- Database holding the stored row and no commits. -/
def dbC1 : DB := { repositories := [rowC1], commits := [], nextRepoId := 2 }

/-- Environment for the zero-commit cycle: metadata fetch succeeds, commit
fetch returns zero commits. -/
def envC1 : FetchEnv :=
  { metadataResult := .ok metaC1, commitsResult := fun _ => .ok [] }

/-- C1: the claim says the zero-commit touch changes only the last-synced and
record-updated timestamps, leaving the fields written by the metadata upsert
unchanged.  The code violates it: the upsert writes the fetched metadata
(stars 20, description "desc", ...), but the touch — `UpdateRepositorySyncData`
with only the id set — then overwrites description, language, every count and
`repo_updated_at` with Go zero values, as the final state of the unit
shows. -/
theorem zero_commit_touch_overwrites_metadata :
    (upsertRepository dbC1 metaC1 100).map
        (fun p => (p.1.starsCount, p.1.description, p.1.language)) =
      .ok (20, "desc", "go") ∧
    (syncRepo envC1 0 dbC1 100).map (fun db => db.repositories.map (fun r =>
        (r.starsCount, r.description, r.language, r.forksCount,
         r.openIssuesCount, r.watchersCount, r.repoUpdatedAt,
         r.lastSyncedAt, r.updatedAt))) =
      .ok [(0, "", "", 0, 0, 0, 0, some 100, 100)] :=
  ⟨rfl, rfl⟩

/-- C10: the first successful sync of a previously unstored repository whose
commit fetch returns at least one commit inserts the repository through
`CreateRepository` — which never sets `last_synced_at` — and takes the
commit-insert branch, which never touches it either: the stored row's
last-synced timestamp is still NULL after the unit commits. -/
theorem first_sync_leaves_last_synced_null (env : FetchEnv) (d : Int)
    (db db2 : DB) (now : Int) (meta : ModelRepository)
    (hmeta : env.metadataResult = .ok meta)
    (habsent : GetRepositoryByOwnerAndName db meta.owner meta.name = none)
    (hnonempty : ∀ s cs, env.commitsResult s = .ok cs → cs ≠ [])
    (hok : syncRepo env d db now = .ok db2) :
    ∃ r, GetRepositoryByOwnerAndName db2 meta.owner meta.name = some r ∧
      r.lastSyncedAt = none := by
  rw [syncRepo, hmeta] at hok
  simp only [upsertRepository, habsent] at hok
  cases hcr : CreateRepository db
      { githubRepoId := meta.githubRepoId, owner := meta.owner, name := meta.name,
        description := (toSQLNullString meta.description).string, url := meta.url,
        language := (toSQLNullString meta.language).string,
        forksCount := meta.forksCount, starsCount := meta.starsCount,
        openIssuesCount := meta.openIssuesCount, watchersCount := meta.watchersCount,
        repoCreatedAt := meta.repoCreatedAt, repoUpdatedAt := meta.repoUpdatedAt } now with
  | error e => rw [hcr] at hok; exact Except.noConfusion hok
  | ok pr =>
    obtain ⟨rNew, db1⟩ := pr
    rw [hcr] at hok
    dsimp only at hok
    obtain ⟨hrNew, hdb1⟩ := CreateRepository_ok _ _ _ _ _ hcr
    cases hcs : env.commitsResult (getSinceTimestamp db1 d rNew.id) with
    | error e => rw [hcs] at hok; exact Except.noConfusion hok
    | ok cs =>
      rw [hcs] at hok
      dsimp only at hok
      have hcsne : cs ≠ [] := hnonempty _ _ hcs
      rw [if_neg (by simpa [List.isEmpty_iff] using hcsne)] at hok
      cases hcc : CreateCommits db1 (prepareCommitBulkInsert rNew.id cs) now with
      | error e => rw [hcc] at hok; exact Except.noConfusion hok
      | ok pr2 =>
        obtain ⟨n, db3⟩ := pr2
        rw [hcc] at hok
        simp only [Except.ok.injEq] at hok
        have hdb3 := CreateCommits_ok _ _ _ _ _ hcc
        subst hok
        refine ⟨rNew, ?_, by rw [hrNew]; rfl⟩
        rw [hdb3, hdb1]
        unfold GetRepositoryByOwnerAndName at habsent ⊢
        rw [List.find?_append, habsent]
        simp [hrNew, createdRepoRow]

/-- Environment for the C10 witness: fresh repository, two upstream
commits. -/
def envC10 : FetchEnv :=
  { metadataResult := .ok metaC1,
    commitsResult := fun _ => .ok
      [{ sha := "abc", authorName := "t", authorEmail := "t@t", message := "m1",
         url := "u1", commitDate := 11 },
       { sha := "def", authorName := "t", authorEmail := "t@t", message := "m2",
         url := "u2", commitDate := 12 }] }

/-- An empty database for the C10 witness. -/
def dbC10 : DB := { repositories := [], commits := [], nextRepoId := 1 }

/-- C10 (witness): the theorem applied at a concrete first sync that inserts
two commits. -/
theorem first_sync_leaves_last_synced_null_witness :
    ∃ r, GetRepositoryByOwnerAndName
        ((syncRepo envC10 0 dbC10 100).toOption.getD dbC10)
        "acme" "widgets" = some r ∧
      r.lastSyncedAt = none :=
  first_sync_leaves_last_synced_null envC10 0 dbC10 _ 100 metaC1 rfl rfl
    (fun s cs h => by
      simp only [envC10, Except.ok.injEq] at h
      rw [← h]
      decide)
    rfl

/-- The watermark computation as a function of the commit table alone
(`getSinceTimestamp` factored through its only database dependency). -/
def sinceOf (commits : List Commit) (d i : Int) : Int :=
  match latestCommitDate commits i with
  | none => d
  | some t => t + 1

/-- `getSinceTimestamp` reads nothing but the commit table. -/
lemma getSinceTimestamp_eq_sinceOf (db : DB) (d i : Int) :
    getSinceTimestamp db d i = sinceOf db.commits d i := rfl

/-- After inserting the fetched batch — the upstream commits at or past the
watermark — the new maximum stored date for the repository bounds every
upstream commit date, so the next watermark (max + 1) excludes all of
upstream. -/
lemma watermark_excludes_upstream (upstream : List ModelCommit)
    (base : List Commit) (rid since1 now1 : Int)
    (hFne : upstream.filter (fun c => since1 ≤ c.commitDate) ≠ []) :
    ∃ M, latestCommitDate (base ++ (prepareCommitBulkInsert rid
        (upstream.filter (fun c => since1 ≤ c.commitDate))).map
        (fun p => commitOfParams p now1)) rid = some M ∧
      upstream.filter (fun c => M + 1 ≤ c.commitDate) = [] := by
  have hmemdate : ∀ f ∈ upstream.filter (fun c => since1 ≤ c.commitDate),
      f.commitDate ∈ ((base ++ (prepareCommitBulkInsert rid
          (upstream.filter (fun c => since1 ≤ c.commitDate))).map
          (fun p => commitOfParams p now1)).filter
          (fun c => c.repositoryId == rid)).map (fun c => c.commitDate) := by
    intro f hf
    have h1 : commitOfParams
        { repositoryId := rid, sha := f.sha, authorName := f.authorName,
          authorEmail := f.authorEmail, message := f.message, url := f.url,
          commitDate := f.commitDate } now1 ∈
        (prepareCommitBulkInsert rid
          (upstream.filter (fun c => since1 ≤ c.commitDate))).map
          (fun p => commitOfParams p now1) :=
      List.mem_map_of_mem _ (List.mem_map_of_mem _ hf)
    have h2 := List.mem_append_right base h1
    have h3 : ({
        sha := f.sha, repositoryId := rid, authorName := f.authorName,
        authorEmail := f.authorEmail, message := f.message, url := f.url,
        commitDate := f.commitDate, createdAt := now1 } : Commit) ∈
        (base ++ (prepareCommitBulkInsert rid
          (upstream.filter (fun c => since1 ≤ c.commitDate))).map
          (fun p => commitOfParams p now1)).filter
          (fun c => c.repositoryId == rid) :=
      List.mem_filter.mpr ⟨h2, by simp⟩
    simpa using List.mem_map_of_mem (fun c => c.commitDate) h3
  obtain ⟨f0, hf0⟩ := List.exists_mem_of_ne_nil _ hFne
  cases hmax : ((base ++ (prepareCommitBulkInsert rid
      (upstream.filter (fun c => since1 ≤ c.commitDate))).map
      (fun p => commitOfParams p now1)).filter
      (fun c => c.repositoryId == rid)).map (fun c => c.commitDate) |>.max? with
  | none =>
    have := hmemdate f0 hf0
    rw [int_max?_none _ hmax] at this
    exact absurd this (List.not_mem_nil _)
  | some M =>
    obtain ⟨hMmem, hMub⟩ := int_max?_spec _ _ hmax
    have hs1f0 : since1 ≤ f0.commitDate := by
      simpa using (List.mem_filter.mp hf0).2
    have hf0M : f0.commitDate ≤ M := hMub _ (hmemdate f0 hf0)
    refine ⟨M, ?_, ?_⟩
    · rw [latestCommitDate]
      exact hmax
    · rw [List.filter_eq_nil_iff]
      intro u hu
      simp only [decide_eq_true_eq]
      by_cases hcase : since1 ≤ u.commitDate
      · have huF : u ∈ upstream.filter (fun c => since1 ≤ c.commitDate) :=
          List.mem_filter.mpr ⟨hu, by simpa⟩
        have := hMub _ (hmemdate u huF)
        omega
      · push_neg at hcase
        omega

/-- A sync of an unchanged upstream against a state that already stores a row
for the repository, with the watermark already past every upstream commit,
succeeds through the zero-commit branch: it fetches nothing, inserts nothing,
and changes only metadata and timestamp fields of repository rows. -/
lemma syncRepo_second_run (env : FetchEnv) (meta : ModelRepository)
    (upstream : List ModelCommit) (d now2 : Int) (db1 : DB) (X : Repository)
    (hmeta : env.metadataResult = .ok meta)
    (hcr : ∀ s, env.commitsResult s =
      .ok (upstream.filter (fun c => s ≤ c.commitDate)))
    (hX : GetRepositoryByOwnerAndName db1 meta.owner meta.name = some X)
    (hflt : upstream.filter
      (fun c => sinceOf db1.commits d X.id ≤ c.commitDate) = []) :
    ∃ db2, syncRepo env d db1 now2 = .ok db2 ∧
      db2.commits = db1.commits ∧
      db2.repositories.map repoIdentityOf = db1.repositories.map repoIdentityOf := by
  have hXmem : X ∈ db1.repositories := List.mem_of_find?_eq_some hX
  obtain ⟨Y, hfindY, hupd, hYid⟩ := UpdateRepositorySyncData_of_mem db1
      { id := X.id, description := (toSQLNullString meta.description).string,
        language := (toSQLNullString meta.language).string,
        forksCount := meta.forksCount, starsCount := meta.starsCount,
        openIssuesCount := meta.openIssuesCount,
        watchersCount := meta.watchersCount,
        repoUpdatedAt := meta.repoUpdatedAt } now2 X hXmem rfl
  rw [syncRepo, hmeta]
  simp only [upsertRepository, hX]
  rw [hupd]
  dsimp only
  have hrBid : (applySyncDataUpdate
      { id := X.id, description := (toSQLNullString meta.description).string,
        language := (toSQLNullString meta.language).string,
        forksCount := meta.forksCount, starsCount := meta.starsCount,
        openIssuesCount := meta.openIssuesCount,
        watchersCount := meta.watchersCount,
        repoUpdatedAt := meta.repoUpdatedAt } now2 Y).id = X.id := by
    rw [applySyncDataUpdate_id]
    exact hYid
  rw [getSinceTimestamp_eq_sinceOf]
  dsimp only
  rw [hrBid, hcr (sinceOf db1.commits d X.id), hflt]
  dsimp only
  have hmemB : applySyncDataUpdate
      { id := X.id, description := (toSQLNullString meta.description).string,
        language := (toSQLNullString meta.language).string,
        forksCount := meta.forksCount, starsCount := meta.starsCount,
        openIssuesCount := meta.openIssuesCount,
        watchersCount := meta.watchersCount,
        repoUpdatedAt := meta.repoUpdatedAt } now2 Y ∈
      db1.repositories.map (applySyncDataUpdate
      { id := X.id, description := (toSQLNullString meta.description).string,
        language := (toSQLNullString meta.language).string,
        forksCount := meta.forksCount, starsCount := meta.starsCount,
        openIssuesCount := meta.openIssuesCount,
        watchersCount := meta.watchersCount,
        repoUpdatedAt := meta.repoUpdatedAt } now2) :=
    List.mem_map_of_mem _ (List.mem_of_find?_eq_some hfindY)
  obtain ⟨Z, hfindZ, hupd2, hZid⟩ := UpdateRepositorySyncData_of_mem
      { repositories := db1.repositories.map (applySyncDataUpdate
          { id := X.id, description := (toSQLNullString meta.description).string,
            language := (toSQLNullString meta.language).string,
            forksCount := meta.forksCount, starsCount := meta.starsCount,
            openIssuesCount := meta.openIssuesCount,
            watchersCount := meta.watchersCount,
            repoUpdatedAt := meta.repoUpdatedAt } now2),
        commits := db1.commits, nextRepoId := db1.nextRepoId }
      { id := X.id } now2
      (applySyncDataUpdate
          { id := X.id, description := (toSQLNullString meta.description).string,
            language := (toSQLNullString meta.language).string,
            forksCount := meta.forksCount, starsCount := meta.starsCount,
            openIssuesCount := meta.openIssuesCount,
            watchersCount := meta.watchersCount,
            repoUpdatedAt := meta.repoUpdatedAt } now2 Y) hmemB hrBid
  simp only [List.isEmpty_nil, if_true]
  rw [hupd2]
  dsimp only
  refine ⟨_, rfl, rfl, ?_⟩
  simp only [List.map_map]
  refine List.map_congr_left (fun r _ => ?_)
  simp only [Function.comp_apply]
  rw [applySyncDataUpdate_identity, applySyncDataUpdate_identity]

/-- C5: running the sync unit twice in a row for a repository with unchanged
upstream data (same metadata; commit fetch returning the upstream commits at
or past the requested watermark) leaves the stored commit rows of the second
run identical to the first run's — the second run fetches zero new commits
because the watermark is past them, so no duplicate commit row is ever
inserted — and changes only metadata and timestamp fields of repository
rows. -/
theorem sync_idempotent (env : FetchEnv) (meta : ModelRepository)
    (upstream : List ModelCommit) (d now1 now2 : Int) (db0 db1 : DB)
    (hmeta : env.metadataResult = .ok meta)
    (hcr : ∀ s, env.commitsResult s =
      .ok (upstream.filter (fun c => s ≤ c.commitDate)))
    (h1 : syncRepo env d db0 now1 = .ok db1) :
    ∃ db2, syncRepo env d db1 now2 = .ok db2 ∧
      db2.commits = db1.commits ∧
      db2.repositories.map repoIdentityOf = db1.repositories.map repoIdentityOf := by
  rw [syncRepo, hmeta] at h1
  dsimp only at h1
  cases hup : upsertRepository db0 meta now1 with
  | error e => rw [hup] at h1; exact Except.noConfusion h1
  | ok pr =>
    obtain ⟨r1, dbA⟩ := pr
    rw [hup] at h1
    dsimp only at h1
    obtain ⟨hAcom, X, hX, hXid⟩ := upsertRepository_ok_lookup _ _ _ _ _ hup
    rw [hcr (getSinceTimestamp dbA d r1.id)] at h1
    dsimp only at h1
    by_cases hFe : upstream.filter
        (fun c => getSinceTimestamp dbA d r1.id ≤ c.commitDate) = []
    · rw [hFe] at h1
      simp only [List.isEmpty_nil, if_true] at h1
      cases htouch : UpdateRepositorySyncData dbA { id := r1.id } now1 with
      | error e => rw [htouch] at h1; exact Except.noConfusion h1
      | ok pr2 =>
        obtain ⟨rT, dbT⟩ := pr2
        rw [htouch] at h1
        dsimp only at h1
        have heq : dbT = db1 := by simpa using h1
        subst heq
        obtain ⟨rT0, hfindT, hrT, hdbT⟩ := UpdateRepositorySyncData_ok _ _ _ _ _ htouch
        subst hdbT
        refine syncRepo_second_run env meta upstream d now2 _
          (applySyncDataUpdate { id := r1.id } now1 X) hmeta hcr ?_ ?_
        · unfold GetRepositoryByOwnerAndName at hX ⊢
          dsimp only
          rw [find?_map_invariant _ _ _ (fun r => by
            rw [applySyncDataUpdate_owner, applySyncDataUpdate_name]), hX]
          rfl
        · dsimp only
          rw [applySyncDataUpdate_id, hXid]
          exact hFe
    · rw [if_neg (by simpa [List.isEmpty_iff] using hFe)] at h1
      cases hcc : CreateCommits dbA (prepareCommitBulkInsert r1.id
          (upstream.filter
            (fun c => getSinceTimestamp dbA d r1.id ≤ c.commitDate))) now1 with
      | error e => rw [hcc] at h1; exact Except.noConfusion h1
      | ok pr2 =>
        obtain ⟨n, db3⟩ := pr2
        rw [hcc] at h1
        dsimp only at h1
        have heq : db3 = db1 := by simpa using h1
        subst heq
        have hdb3 := CreateCommits_ok _ _ _ _ _ hcc
        subst hdb3
        obtain ⟨M, hM, hMflt⟩ := watermark_excludes_upstream upstream dbA.commits
          r1.id (getSinceTimestamp dbA d r1.id) now1 hFe
        refine syncRepo_second_run env meta upstream d now2 _ X hmeta hcr ?_ ?_
        · unfold GetRepositoryByOwnerAndName at hX ⊢
          exact hX
        · dsimp only
          rw [hXid]
          have hs2 : sinceOf (dbA.commits ++ (prepareCommitBulkInsert r1.id
              (upstream.filter
                (fun c => getSinceTimestamp dbA d r1.id ≤ c.commitDate))).map
              (fun p => commitOfParams p now1)) d r1.id = M + 1 := by
            unfold sinceOf
            rw [hM]
          rw [hs2]
          exact hMflt

/-- Upstream history for the idempotence witness: two commits. -/
def upstreamC5 : List ModelCommit :=
  [{ sha := "abc", authorName := "t", authorEmail := "t@t", message := "m1",
     url := "u1", commitDate := 11 },
   { sha := "def", authorName := "t", authorEmail := "t@t", message := "m2",
     url := "u2", commitDate := 12 }]

/-- Unchanged-upstream environment for the idempotence witness. -/
def envC5 : FetchEnv :=
  { metadataResult := .ok metaC1,
    commitsResult := fun s => .ok (upstreamC5.filter (fun c => s ≤ c.commitDate)) }

/-- Empty starting database for the idempotence witness. -/
def dbEmptyC5 : DB := { repositories := [], commits := [], nextRepoId := 1 }

/-- State after the first sync of the idempotence witness. -/
def db1C5 : DB := (syncRepo envC5 0 dbEmptyC5 10).toOption.getD dbEmptyC5

/-- C5 (witness): the idempotence theorem applied at a concrete first run
that inserted two commits. -/
theorem sync_idempotent_witness :
    ∃ db2, syncRepo envC5 0 db1C5 20 = .ok db2 ∧
      db2.commits = db1C5.commits ∧
      db2.repositories.map repoIdentityOf = db1C5.repositories.map repoIdentityOf :=
  sync_idempotent envC5 metaC1 upstreamC5 0 10 20 dbEmptyC5 db1C5 rfl
    (fun _ => rfl) rfl

end GhFetcher
